import Mathlib

/-!
Verification of the Stremio Trakt addon core against its natural-language
specification.  The JavaScript source is shallowly embedded: every stateful
operation becomes an explicit state-passing function, network and database
outcomes are supplied by oracles, and JavaScript quirks (truthiness, SQL
NULL comparison, `parseInt` NaN, promises) are modelled explicitly.
-/

deriving instance DecidableEq for Except

set_option maxRecDepth 4096

namespace StremioTrakt

/-- JavaScript truthiness of a string: the empty string is falsy. -/
def jsTruthyStr (s : String) : Bool := !s.isEmpty

/-- JavaScript truthiness of a nullable string (`null`/`undefined` and `""` are falsy). -/
def jsTruthyOptStr : Option String → Bool
  | some s => jsTruthyStr s
  | none => false

/-- Template-literal rendering of a possibly-undefined string (`undefined` renders as "undefined"). -/
def jsTemplateStr : Option String → String
  | some s => s
  | none => "undefined"

/-! ## Response cache (src/helpers/redis.js)

The Redis client is modelled as a state record: the module-level
`redisUnavailable` / `hasLoggedError` flags plus the key/value store
(holding only live, unexpired entries, as Redis GET never returns an
expired value).  Whether a raw client operation errors is an oracle
boolean passed by the caller of each modelled call. -/

structure RedisState where
  unavailable : Bool
  hasLoggedError : Bool
  store : List (String × String)
  deriving Repr, DecidableEq

/-- Lookup in the key/value store (Redis GET on a live key). -/
def storeLookup (l : List (String × String)) (k : String) : Option String :=
  match l.find? (fun p => p.1 = k) with
  | some p => some p.2
  | none => none

/-- Redis SET overwrites the previous value for the key. -/
def storeInsert (l : List (String × String)) (k v : String) : List (String × String) :=
  (k, v) :: l.filter (fun p => p.1 ≠ k)

/-- The two cache operations the gateway issues through `safeRedisCall`. -/
inductive RedisOp
  | get (key : String)
  | setEx (key : String) (val : String) (ttlSeconds : Nat)

/-- Model of `safeRedisCall` (src/helpers/redis.js:61-76): if Redis is marked
unavailable the operation is skipped and `null` is returned; if the raw
client call errors (oracle `opFails`), Redis is marked unavailable and
`null` is returned; the function never throws. -/
def safeRedisCall (st : RedisState) (opFails : Bool) (op : RedisOp) :
    Option String × RedisState :=
  if st.unavailable then
    (none, st)
  else if opFails then
    (none, { st with unavailable := true })
  else
    match op with
    | .get k => (storeLookup st.store k, st)
    | .setEx k v _ => (some "OK", { st with store := storeInsert st.store k v })

/-- Model of the `redisClient.on('ready', ...)` handler (src/helpers/redis.js:15-21). -/
def onReady (st : RedisState) : RedisState :=
  if st.unavailable then
    { st with unavailable := false, hasLoggedError := false }
  else st

/-- Model of the `redisClient.on('end', ...)` handler (src/helpers/redis.js:23-28). -/
def onEnd (st : RedisState) : RedisState :=
  if !st.unavailable then { st with unavailable := true } else st

/-- Model of the `redisClient.on('error', ...)` handler (src/helpers/redis.js:30-38). -/
def onError (st : RedisState) : RedisState :=
  let st1 := if !st.unavailable then { st with unavailable := true } else st
  if !st1.hasLoggedError then { st1 with hasLoggedError := true } else st1

/-! ## Rate-limited request gateway (src/api/trakt.js:28-122)

Payloads are modelled as their serialized JSON strings, so the
`JSON.stringify` on cache write and `JSON.parse` on cache read are the
identity on the stored string.  The upstream outcome of the single
network call a request would make is an oracle. -/

inductive UpstreamOutcome
  | ok (data : String)
  | httpErr (status : Nat) (msg : String)
  | netErr (msg : String)

/-- The observable trace of one gateway request: the settled promise,
the number of jobs submitted to the Bottleneck queue, the number of
upstream network calls performed, and the final cache state. -/
structure GatewayTrace where
  result : Except String String
  queued : Nat
  upstream : Nat
  redis : RedisState
  deriving Repr

/-- Cache key of `makeGetRequest` (src/api/trakt.js:40). -/
def getCacheKey (accessToken : Option String) (url : String) : String :=
  "trakt:GET:" ++ accessToken.getD "public" ++ ":" ++ url

/-- Cache key of `makePostRequest` (src/api/trakt.js:97); `body` is the
serialized request payload. -/
def postCacheKey (accessToken : Option String) (url : String) (body : String) : String :=
  "trakt:POST:" ++ accessToken.getD "public" ++ ":" ++ url ++ ":" ++ body

/-- Model of `makeGetRequest` (src/api/trakt.js:28-69): check the response
cache first and resolve immediately on a (truthy) hit; otherwise enqueue
the network call, and on success store the response in the cache with the
configured TTL before resolving.  HTTP and network failures reject. -/
def makeGetRequest (st : RedisState) (getFails setFails : Bool)
    (up : UpstreamOutcome) (cacheDuration : Nat)
    (url : String) (accessToken : Option String) : GatewayTrace :=
  let cacheKey := getCacheKey accessToken url
  let res := safeRedisCall st getFails (RedisOp.get cacheKey)
  if jsTruthyOptStr res.1 then
    { result := Except.ok (res.1.getD ""), queued := 0, upstream := 0, redis := res.2 }
  else
    match up with
    | .ok data =>
      let res2 := safeRedisCall res.2 setFails (RedisOp.setEx cacheKey data cacheDuration)
      { result := Except.ok data, queued := 1, upstream := 1, redis := res2.2 }
    | .httpErr _ msg =>
      { result := Except.error msg, queued := 1, upstream := 1, redis := res.2 }
    | .netErr msg =>
      { result := Except.error msg, queued := 1, upstream := 1, redis := res.2 }

/-- Model of `makePostRequest` (src/api/trakt.js:86-122): identical shape to
`makeGetRequest` but keyed additionally on the serialized POST body. -/
def makePostRequest (st : RedisState) (getFails setFails : Bool)
    (up : UpstreamOutcome) (cacheDuration : Nat)
    (url : String) (body : String) (accessToken : Option String) : GatewayTrace :=
  let cacheKey := postCacheKey accessToken url body
  let res := safeRedisCall st getFails (RedisOp.get cacheKey)
  if jsTruthyOptStr res.1 then
    { result := Except.ok (res.1.getD ""), queued := 0, upstream := 0, redis := res.2 }
  else
    match up with
    | .ok data =>
      let res2 := safeRedisCall res.2 setFails (RedisOp.setEx cacheKey data cacheDuration)
      { result := Except.ok data, queued := 1, upstream := 1, redis := res2.2 }
    | .httpErr _ msg =>
      { result := Except.error msg, queued := 1, upstream := 1, redis := res.2 }
    | .netErr msg =>
      { result := Except.error msg, queued := 1, upstream := 1, redis := res.2 }

/-- Serialized body of the OAuth code-exchange POST (src/api/trakt.js:138-144). -/
def exchangeBody (code clientId clientSecret redirectUri : String) : String :=
  "\x7b\"code\":\"" ++ code ++ "\",\"client_id\":\"" ++ clientId ++
  "\",\"client_secret\":\"" ++ clientSecret ++ "\",\"redirect_uri\":\"" ++ redirectUri ++
  "\",\"grant_type\":\"authorization_code\"\x7d"

def TRAKT_BASE_URL : String := "https://api.trakt.tv"

/-- Model of `exchangeCodeForToken` (src/api/trakt.js:136-151): a POST of the
code-exchange payload through `makePostRequest`. -/
def exchangeCodeForToken (st : RedisState) (getFails setFails : Bool)
    (up : UpstreamOutcome) (cacheDuration : Nat)
    (code clientId clientSecret redirectUri : String) : GatewayTrace :=
  makePostRequest st getFails setFails up cacheDuration
    (TRAKT_BASE_URL ++ "/oauth/token")
    (exchangeBody code clientId clientSecret redirectUri) none

/-! ## Catalog page enrichment (src/routes/catalog.js, unnamed parts 000 and 002)

The route maps each raw item to an async enrichment whose `try`/`catch`
returns the built meta object or `null` on failure, then applies
`.filter(Boolean)` to the resulting array and awaits it with
`Promise.all`.  Crucially, in the source the `.filter(Boolean)` is applied
to the array of *pending promises* (`.map(async ...)` returns promises),
and a JavaScript Promise object is always truthy, so the filter removes
nothing; the awaited array still contains `null` at each failed position.
`PromiseOf` wraps a pending value to keep that distinction visible. -/

structure PromiseOf (α : Type) where
  val : α
  deriving Repr, DecidableEq

/-- JavaScript `Boolean(p)` for a Promise object: promises are objects,
hence always truthy. -/
def promiseTruthy (_ : PromiseOf α) : Bool := true

/-- Model of the enrichment fan-out of the catalog route handler:
`await Promise.all(items.map(async item => ...enrich or null...).filter(Boolean))`.
`enrichOne` is the per-item oracle, returning `none` exactly when that
item's metadata fetch fails (the handler catches the error and returns
`null`). -/
def catalogMetas (items : List α) (enrichOne : α → Option β) : List (Option β) :=
  ((items.map (fun it => PromiseOf.mk (enrichOne it))).filter promiseTruthy).map
    PromiseOf.val

/-! ## Duration parsing (src/helpers/cache.js:79-87 and src/api/trakt.js:271-283) -/

/-- The regular expression of `parseCacheDuration`:
a string matches `\x5e(\d+)([dh])$` iff its last character is `d` or `h`
and the rest is a non-empty digit string. -/
def isDurationForm (s : String) : Bool :=
  match s.toList.getLast? with
  | some u =>
    (u = 'd' || u = 'h') && !s.toList.dropLast.isEmpty &&
      s.toList.dropLast.all Char.isDigit
  | none => false

/-- Numeric value of a non-empty digit list (the captured `(\d+)` group). -/
def digitsToNat (cs : List Char) : Nat :=
  cs.foldl (fun a c => a * 10 + (c.toNat - 48)) 0

/-- Model of `parseCacheDuration` (src/helpers/cache.js:79-87): seconds on a
well-formed `<n>d` / `<n>h` string, and a thrown error otherwise. -/
def parseCacheDuration (duration : String) : Except String Nat :=
  if isDurationForm duration then
    let value := digitsToNat duration.toList.dropLast
    if duration.toList.getLast? = some 'd' then Except.ok (value * 86400)
    else Except.ok (value * 3600)
  else
    Except.error "Invalid cache duration format. Use d for days or h for hours."

/-- JavaScript `parseInt(s, 10)`: skip leading whitespace, read an optional
sign and then a maximal digit prefix; `none` models `NaN` (no digits). -/
def jsParseInt (s : String) : Option Int :=
  let cs := s.toList.dropWhile (fun c => c = ' ' || c = '\t' || c = '\n' || c = '\r')
  let signed : Int × List Char :=
    match cs with
    | '-' :: rest => (-1, rest)
    | '+' :: rest => (1, rest)
    | _ => (1, cs)
  let digits := signed.2.takeWhile Char.isDigit
  if digits.isEmpty then none
  else some (signed.1 * (digitsToNat digits : Nat))

/-- JavaScript `s.slice(0, -1)`: the string without its last character. -/
def jsSliceDropLast (s : String) : String := String.mk s.toList.dropLast

/-- JavaScript `s.slice(-1)`: the last character as a string (empty on ""). -/
def jsSliceLast (s : String) : String :=
  match s.toList.getLast? with
  | some c => String.mk [c]
  | none => ""

/-- Model of the interval IIFE of `handleTraktHistory`
(src/api/trakt.js:271-283): parse the numeric prefix with `parseInt`,
switch on the final character; `h`/`d` scale to milliseconds (`none`
propagates `NaN`), any other unit throws. -/
def intervalInMs (fetchInterval : String) : Except String (Option Int) :=
  let intervalValue := jsParseInt (jsSliceDropLast fetchInterval)
  let intervalUnit := jsSliceLast fetchInterval
  if intervalUnit = "h" then
    Except.ok (intervalValue.map (fun v => v * 60 * 60 * 1000))
  else if intervalUnit = "d" then
    Except.ok (intervalValue.map (fun v => v * 24 * 60 * 60 * 1000))
  else
    Except.error ("Invalid time unit in TRAKT_HISTORY_FETCH_INTERVAL: " ++ fetchInterval)

/-! ## List items fetch and local sort (src/api/trakt.js:544-597)

List items wrap a movie or a show; `listed_at` is modelled by its epoch
timestamp (the source compares `new Date(x)` values).  JavaScript's
stable `Array.prototype.sort` is modelled by a stable insertion sort with
"a may precede b" given by `comparator a b ≤ 0`. -/

structure MediaLite where
  title : String
  year : Option Int
  deriving Repr, DecidableEq

structure TraktListItem where
  rank : Int
  listed_at : Int
  movie : Option MediaLite
  show_ : Option MediaLite
  deriving Repr, DecidableEq

/-- ASCII lower-casing, the effect of `toLowerCase()` on the titles used here. -/
def jsToLower (s : String) : String :=
  String.mk (s.toList.map Char.toLower)

/-- JavaScript `x || y` on nullable strings: `x` when truthy, else `y`. -/
def jsOrOptStr (x y : Option String) : Option String :=
  if jsTruthyOptStr x then x else y

/-- JavaScript truthiness of a nullable number (`0` and `undefined` are falsy). -/
def jsTruthyOptInt : Option Int → Bool
  | some n => n ≠ 0
  | none => false

/-- JavaScript `x || y` on nullable numbers. -/
def jsOrOptInt (x y : Option Int) : Option Int :=
  if jsTruthyOptInt x then x else y

/-- The `title` sort key: `(a.movie?.title || a.show?.title || '').toLowerCase()`. -/
def titleKey (a : TraktListItem) : String :=
  jsToLower ((jsOrOptStr (a.movie.map MediaLite.title) (a.show_.map MediaLite.title)).getD "")

/-- The `year` sort key: `a.movie?.year || a.show?.year || 0`. -/
def yearKey (a : TraktListItem) : Int :=
  (jsOrOptInt (a.movie.bind MediaLite.year) (a.show_.bind MediaLite.year)).getD 0

/-- Direction step of the comparator (src/api/trakt.js:584-588): for `desc`,
`valueA < valueB` sorts later; otherwise ascending. -/
def cmpDir (sortHow : String) (aLtB aGtB : Bool) : Int :=
  if sortHow = "desc" then
    if aLtB then 1 else if aGtB then -1 else 0
  else
    if aGtB then 1 else if aLtB then -1 else 0

/-- The sort comparator of `fetchListItems` (src/api/trakt.js:560-589),
switching on the sort field; an unknown field compares everything equal. -/
def listComparator (sortBy sortHow : String) (a b : TraktListItem) : Int :=
  if sortBy = "rank" then
    cmpDir sortHow (decide (a.rank < b.rank)) (decide (b.rank < a.rank))
  else if sortBy = "listed_at" then
    cmpDir sortHow (decide (a.listed_at < b.listed_at)) (decide (b.listed_at < a.listed_at))
  else if sortBy = "title" then
    cmpDir sortHow (decide (titleKey a < titleKey b)) (decide (titleKey b < titleKey a))
  else if sortBy = "year" then
    cmpDir sortHow (decide (yearKey a < yearKey b)) (decide (yearKey b < yearKey a))
  else 0

/-- Stable insertion of `x` before the first element `y` with `le x y`. -/
def stableInsert (le : α → α → Bool) (x : α) : List α → List α
  | [] => [x]
  | y :: ys => if le x y then x :: y :: ys else y :: stableInsert le x ys

/-- Stable sort (the ECMAScript `Array.prototype.sort` guarantee): equal
elements keep their input order. -/
def stableSort (le : α → α → Bool) : List α → List α
  | [] => []
  | x :: xs => stableInsert le x (stableSort le xs)

/-- Model of `fetchListItems` (src/api/trakt.js:544-597): the first component
is the pagination parameters sent upstream (`none` means the full list is
requested: with a `sortBy` the source leaves `params` empty), the second
the possibly locally sorted data. -/
def fetchListItems (items : List TraktListItem) (page limit : Option Nat)
    (sortBy : Option String) (sortHow : String) :
    Option (Option Nat × Option Nat) × List TraktListItem :=
  let params := if sortBy.isNone then some (page, limit) else none
  let data :=
    match sortBy with
    | some sb => stableSort (fun a b => listComparator sb sortHow a b ≤ 0) items
    | none => items
  (params, data)

/-- The caller-side windowing `allItems.slice(skip, skip + limit)`
(src/routes/catalog.js, unnamed part 002 line 128). -/
def windowSlice (skip limit : Nat) (xs : List α) : List α :=
  (xs.drop skip).take limit

/-! ## The trakt_history table and saveUserWatchedHistory (src/api/trakt.js:379-426)

A table row mirrors the `trakt_history` schema (src/helpers/db.js:41-50);
`imdb_id` and `tmdb_id` are nullable.  `id` is a SERIAL PRIMARY KEY, so
updating `WHERE id = rows[0].id` updates exactly the first row returned
by the lookup; the lookup itself (`SELECT ... WHERE username = $1 AND
imdb_id = $2`) uses SQL equality, under which a NULL `$2` matches no row. -/

structure Row where
  id : Nat
  username : String
  imdb : Option String
  tmdb : Option Int
  rtype : String
  watched : String
  title : String
  deriving Repr, DecidableEq

structure Table where
  rows : List Row
  nextId : Nat
  deriving Repr, DecidableEq

/-- Upstream history item shape: `item.movie || item.show` carries
`ids.imdb` / `ids.tmdb` and a title; `last_watched_at` sits on the item. -/
structure MediaIds where
  imdb : Option String
  tmdb : Option Int
  deriving Repr, DecidableEq

structure Media where
  ids : MediaIds
  title : String
  deriving Repr, DecidableEq

structure HistItem where
  movie : Option Media
  show_ : Option Media
  last_watched_at : String
  deriving Repr, DecidableEq

/-- The data the loop body extracts from one history item: the media
(`item.movie || item.show`), its type, and the watch timestamp.  `none`
when the item has neither movie nor show (`media.ids` then throws). -/
structure GoodItem where
  imdb : Option String
  tmdb : Option Int
  mtype : String
  watched : String
  title : String
  deriving Repr, DecidableEq

/-- Extraction step of the loop body (src/api/trakt.js:390-394). -/
def toGood (it : HistItem) : Option GoodItem :=
  match it.movie, it.show_ with
  | some m, _ =>
    some { imdb := m.ids.imdb, tmdb := m.ids.tmdb, mtype := "movie",
           watched := it.last_watched_at, title := m.title }
  | none, some s =>
    some { imdb := s.ids.imdb, tmdb := s.ids.tmdb, mtype := "show",
           watched := it.last_watched_at, title := s.title }
  | none, none => none

/-- SQL `r.imdb_id = v` for the lookup: NULL on either side matches nothing. -/
def sqlEqOptStr : Option String → Option String → Bool
  | some a, some b => a = b
  | _, _ => false

/-- Predicate of the history lookup `WHERE username = $1 AND imdb_id = $2`. -/
def rowMatches (uname : String) (imdb : Option String) (r : Row) : Bool :=
  r.username = uname && sqlEqOptStr r.imdb imdb

/-- The UPDATE of the loop body: sets `watched_at`, `title`, `tmdb_id`,
`type` (and leaves `id`, `username`, `imdb_id` alone). -/
def setPayload (g : GoodItem) (r : Row) : Row :=
  { r with watched := g.watched, title := g.title, tmdb := g.tmdb, rtype := g.mtype }

/-- Replace the first element satisfying `p` by its image under `f`. -/
def updateFirst (p : α → Bool) (f : α → α) : List α → List α
  | [] => []
  | x :: xs => if p x then f x :: xs else x :: updateFirst p f xs

/-- The INSERT of the loop body (src/api/trakt.js:409-413). -/
def insertRow (uname : String) (g : GoodItem) (t : Table) : Table :=
  { rows := t.rows ++
      [{ id := t.nextId, username := uname, imdb := g.imdb, tmdb := g.tmdb,
         rtype := g.mtype, watched := g.watched, title := g.title }],
    nextId := t.nextId + 1 }

/-- One iteration of the upsert loop (src/api/trakt.js:389-415) on the
uncommitted working state: update the first row found by the lookup, or
insert when the lookup returns no row. -/
def upsertGood (uname : String) (t : Table) (g : GoodItem) : Table :=
  if t.rows.any (rowMatches uname g.imdb) then
    { t with rows := updateFirst (rowMatches uname g.imdb) (setPayload g) t.rows }
  else
    insertRow uname g t

/-- The whole upsert loop on the working state, no write failing. -/
def upsertBatch (uname : String) (t : Table) (gs : List GoodItem) : Table :=
  gs.foldl (upsertGood uname) t

/-- Model of `saveUserWatchedHistory` (src/api/trakt.js:379-426).  `failOn k`
is the oracle "the database write for the k-th item fails".  An empty or
missing batch returns early without opening a transaction.  Otherwise the
loop runs inside BEGIN/COMMIT: a failing write (or the TypeError on an
item with neither movie nor show) triggers ROLLBACK, discarding the
working state and rethrowing, so the committed table is the pre-call one.
`saveLoop` is the transaction body: `t0` is the rollback target. -/
def saveLoop (failOn : Nat → Bool) (uname : String) (t0 : Table) :
    Nat → List HistItem → Table → Except String Unit × Table
  | _, [], cur => (Except.ok (), cur)
  | k, it :: rest, cur =>
    match toGood it with
    | none => (Except.error "TypeError", t0)
    | some g =>
      if failOn k then (Except.error "db_error", t0)
      else saveLoop failOn uname t0 (k + 1) rest (upsertGood uname cur g)

def saveUserWatchedHistory (failOn : Nat → Bool) (uname : String)
    (history : List HistItem) (t : Table) : Except String Unit × Table :=
  if history.isEmpty then
    (Except.ok (), t)
  else
    saveLoop failOn uname t 0 history t

/-! ## History synchronisation (src/api/trakt.js:236-347)

`fetchUserHistory` converts an upstream 401 into the `token_expired`
error; any other failure is rethrown.  `handleTraktHistory` fetches the
movie and show histories with the stored token, and on `token_expired`
refreshes the token pair, persists it, and retries the pair of fetches
exactly once with the new access token; success of the whole block stamps
`last_fetched_at`, failure is logged and swallowed by the outer catch. -/

structure TokenPair where
  access_token : String
  refresh_token : String
  deriving Repr, DecidableEq

/-- The raw outcome of one authenticated history GET. -/
inductive FetchOutcome
  | ok (items : List HistItem)
  | http (status : Nat) (msg : String)
  | err (msg : String)

/-- Model of `fetchUserHistory` (src/api/trakt.js:236-248): a 401 response
becomes the `token_expired` error, everything else is rethrown. -/
def fetchUserHistory (raw : FetchOutcome) : Except String (List HistItem) :=
  match raw with
  | .ok items => Except.ok items
  | .http status msg => if status = 401 then Except.error "token_expired" else Except.error msg
  | .err msg => Except.error msg

/-- Upstream and database oracles of one `handleTraktHistory` run: the raw
outcome of a movie/show history fetch as a function of the access token
presented, the outcome of a token refresh, and the per-row write-failure
oracles of the two batch saves. -/
structure SyncOracle where
  rawMovies : String → FetchOutcome
  rawShows : String → FetchOutcome
  refresh : String → Except String TokenPair
  failMovies : Nat → Bool
  failShows : Nat → Bool

/-- `Promise.all` over the two history fetches (rejection modelled in array
order). -/
def promiseAll2 (a b : Except String α) : Except String (α × α) :=
  match a with
  | .error e => Except.error e
  | .ok x =>
    match b with
    | .error e => Except.error e
    | .ok y => Except.ok (x, y)

/-- The credentials row of the user, as stored in `trakt_tokens`. -/
structure UserRow where
  access_token : String
  refresh_token : String
  last_fetched_at : Option String
  deriving Repr, DecidableEq

/-- The persistent state `handleTraktHistory` touches: the user's
credentials row and the history table. -/
structure SyncDB where
  user : Option UserRow
  hist : Table
  deriving Repr, DecidableEq

/-- Model of `updateTokensInDb` (src/api/trakt.js:216-221). -/
def updateTokensInDb (nt : TokenPair) (db : SyncDB) : SyncDB :=
  { db with user := db.user.map (fun u =>
      { u with access_token := nt.access_token, refresh_token := nt.refresh_token }) }

/-- The pair of `saveUserWatchedHistory` calls under `Promise.all`
(src/api/trakt.js:311-314): both transactions run independently; the
movie save's error, if any, is the one the `Promise.all` rejects with. -/
def saveBoth (o : SyncOracle) (uname : String) (mh sh : List HistItem) (t : Table) :
    Except String Unit × Table :=
  let rm := saveUserWatchedHistory o.failMovies uname mh t
  let rs := saveUserWatchedHistory o.failShows uname sh rm.2
  (match rm.1 with
   | .error e => Except.error e
   | .ok _ => rs.1, rs.2)

/-- The observable trace of the fetch/refresh/save block
(src/api/trakt.js:305-337): its outcome, the access tokens used for the
successive fetch attempts, the number of refresh calls, and the state. -/
structure SyncTrace where
  result : Except String Unit
  tokensUsed : List String
  refreshCalls : Nat
  db : SyncDB
  deriving Repr

/-- The retry step inside the catch of `handleTraktHistory`
(src/api/trakt.js:325-333): after a successful refresh, the two fetches
are issued once more with the new access token (`db1` already holds the
persisted pair); a failure of this single retry propagates with no
further retry. -/
def retryStage (o : SyncOracle) (uname oldToken : String) (nt : TokenPair)
    (db1 : SyncDB) : SyncTrace :=
  match promiseAll2 (fetchUserHistory (o.rawMovies nt.access_token))
      (fetchUserHistory (o.rawShows nt.access_token)) with
  | .ok (mh, sh) =>
    let saved := saveBoth o uname mh sh db1.hist
    { result := saved.1, tokensUsed := [oldToken, nt.access_token],
      refreshCalls := 1, db := { db1 with hist := saved.2 } }
  | .error e3 =>
    { result := Except.error e3, tokensUsed := [oldToken, nt.access_token],
      refreshCalls := 1, db := db1 }

/-- Model of the inner try/catch of `handleTraktHistory`
(src/api/trakt.js:305-337): attempt both fetches with the stored access
token; on `token_expired`, refresh, persist the new pair, and run the
retry stage; a failure of the refresh itself, or any non-401 error of
the first attempt, propagates directly. -/
def fetchAndSaveBlock (o : SyncOracle) (uname : String) (u : UserRow)
    (db : SyncDB) : SyncTrace :=
  match promiseAll2 (fetchUserHistory (o.rawMovies u.access_token))
      (fetchUserHistory (o.rawShows u.access_token)) with
  | .ok (mh, sh) =>
    let saved := saveBoth o uname mh sh db.hist
    { result := saved.1, tokensUsed := [u.access_token], refreshCalls := 0,
      db := { db with hist := saved.2 } }
  | .error e =>
    if e = "token_expired" then
      match o.refresh u.refresh_token with
      | .error e2 =>
        { result := Except.error e2, tokensUsed := [u.access_token],
          refreshCalls := 1, db := db }
      | .ok nt =>
        retryStage o uname u.access_token nt (updateTokensInDb nt db)
    else
      { result := Except.error e, tokensUsed := [u.access_token],
        refreshCalls := 0, db := db }

/-- Stamp `last_fetched_at = now` (src/api/trakt.js:339-342). -/
def stampFetchedAt (nowStr : String) (db : SyncDB) : SyncDB :=
  { db with user := db.user.map (fun u => { u with last_fetched_at := some nowStr }) }

/-- Model of the guarded sync block of `handleTraktHistory`
(src/api/trakt.js:295-347), entered once the cooldown check passed: when
a credentials row exists, run the fetch/refresh/save block; on success
stamp `last_fetched_at`, on failure log and swallow the error, leaving
the stamp untouched. -/
def syncBlock (o : SyncOracle) (nowStr uname : String) (db : SyncDB) : SyncDB :=
  match db.user with
  | none => db
  | some u =>
    let tr := fetchAndSaveBlock o uname u db
    match tr.result with
    | .ok _ => stampFetchedAt nowStr tr.db
    | .error _ => tr.db

/-! ## Annotation of catalog items (src/api/trakt.js:349-364) -/

/-- A catalog item entering `handleTraktHistory`: its stringified id, the
nullable `name` and `title` fields the annotation reads, and `rest`
standing for all the other fields of the object. -/
structure Content where
  id : String
  name : Option String
  title : Option String
  rest : String
  deriving Repr, DecidableEq

/-- Type conversion of the annotation query (src/api/trakt.js:269). -/
def dbTypeOf (t : String) : String :=
  if t = "movies" then "movie" else if t = "series" then "show" else t

/-- The id list of the annotation query (src/api/trakt.js:349-355):
`SELECT imdb_id FROM trakt_history WHERE username = $1 AND type = $2 AND
imdb_id IS NOT NULL`, rows in table order. -/
def traktIdsFor (t : Table) (uname qtype : String) : List String :=
  (t.rows.filter (fun r =>
    r.username = uname && r.rtype = dbTypeOf qtype && r.imdb.isSome)).filterMap Row.imdb

/-- `parsedConfig.watchedEmoji || checkmark` (src/api/trakt.js:266). -/
def emojiOf (watchedEmoji : Option String) : String :=
  if jsTruthyOptStr watchedEmoji then watchedEmoji.getD "" else "✔️"

/-- Model of the annotation map of `handleTraktHistory`
(src/api/trakt.js:357-363): items whose stringified id occurs among the
persisted imdb ids get their `name` replaced by the watched marker, a
space, and `content.name || content.title` (template-stringified); all
other items pass through unchanged. -/
def annotateResults (watchedEmoji : Option String) (t : Table)
    (uname qtype : String) (rs : List Content) : List Content :=
  let ids := traktIdsFor t uname qtype
  rs.map (fun content =>
    if ids.contains content.id then
      { content with name := some (emojiOf watchedEmoji ++ " " ++
          jsTemplateStr (if jsTruthyOptStr content.name then content.name
                         else content.title)) }
    else content)

/-! ## Theorems -/

/-- C1: the claim says `exchangeCodeForToken` performs its POST without
caching.  In the code it goes through `makePostRequest`, which checks the
response cache and serves a hit without any upstream call or queue
submission, and stores every successful response under the key derived
from the URL and the serialized body (which embeds the single-use code).
This theorem exhibits both: with a seeded cache entry for code "abc" the
exchange is served from cache with zero upstream calls, and from an empty
cache the fresh response is stored in the cache. -/
theorem exchangeCodeForToken_uses_response_cache :
    (exchangeCodeForToken
        { unavailable := false, hasLoggedError := false,
          store := [(postCacheKey none (TRAKT_BASE_URL ++ "/oauth/token")
            (exchangeBody "abc" "cid" "sec" "ruri"), "staleTokenResponse")] }
        false false (UpstreamOutcome.ok "freshTokenResponse") 86400
        "abc" "cid" "sec" "ruri").result = Except.ok "staleTokenResponse"
    ∧ (exchangeCodeForToken
        { unavailable := false, hasLoggedError := false,
          store := [(postCacheKey none (TRAKT_BASE_URL ++ "/oauth/token")
            (exchangeBody "abc" "cid" "sec" "ruri"), "staleTokenResponse")] }
        false false (UpstreamOutcome.ok "freshTokenResponse") 86400
        "abc" "cid" "sec" "ruri").upstream = 0
    ∧ (exchangeCodeForToken
        { unavailable := false, hasLoggedError := false,
          store := [(postCacheKey none (TRAKT_BASE_URL ++ "/oauth/token")
            (exchangeBody "abc" "cid" "sec" "ruri"), "staleTokenResponse")] }
        false false (UpstreamOutcome.ok "freshTokenResponse") 86400
        "abc" "cid" "sec" "ruri").queued = 0
    ∧ storeLookup
        (exchangeCodeForToken
          { unavailable := false, hasLoggedError := false, store := [] }
          false false (UpstreamOutcome.ok "freshTokenResponse") 86400
          "abc" "cid" "sec" "ruri").redis.store
        (postCacheKey none (TRAKT_BASE_URL ++ "/oauth/token")
          (exchangeBody "abc" "cid" "sec" "ruri")) = some "freshTokenResponse" := by
  refine ⟨?_, ?_, ?_, ?_⟩ <;> decide

/-- C4: the claim says a failed item is absent from the page output.  In the
code the `.filter(Boolean)` is applied to the array of pending promises
(all truthy), so the awaited result keeps `null` at the failed position:
enriching a 20-item page whose 5th item fails yields 20 entries with a
`null` fifth entry (not 19 entries).  The successfully enriched items do
appear in their original relative order and no error is raised. -/
theorem catalogMetas_keeps_failed_item_as_null :
    catalogMetas (List.range 20) (fun n => if n = 4 then none else some n) =
      (List.range 20).map (fun n => if n = 4 then none else some n)
    ∧ (catalogMetas (List.range 20) (fun n => if n = 4 then none else some n)).length = 20
    ∧ (catalogMetas (List.range 20) (fun n => if n = 4 then none else some n)).get? 4 =
        some none
    ∧ (catalogMetas (List.range 20) (fun n => if n = 4 then none else some n)).filterMap
        id = (List.range 20).filter (fun n => n ≠ 4) := by
  refine ⟨?_, ?_, ?_, ?_⟩ <;> decide

/-- C5: a gateway request whose cache key has a live, truthy cached entry
(and a reachable cache store) resolves to the cached value, performs no
upstream network call, submits nothing to the rate-limit queue, and
leaves the cache state untouched; this holds for both the GET and the
POST gateway. -/
theorem gateway_cache_hit_no_upstream :
    (∀ (st : RedisState) (sf : Bool) (up : UpstreamOutcome) (dur : Nat)
        (url : String) (tok : Option String) (v : String),
        st.unavailable = false →
        storeLookup st.store (getCacheKey tok url) = some v →
        jsTruthyStr v = true →
        makeGetRequest st false sf up dur url tok =
          { result := Except.ok v, queued := 0, upstream := 0, redis := st })
    ∧ (∀ (st : RedisState) (sf : Bool) (up : UpstreamOutcome) (dur : Nat)
        (url body : String) (tok : Option String) (v : String),
        st.unavailable = false →
        storeLookup st.store (postCacheKey tok url body) = some v →
        jsTruthyStr v = true →
        makePostRequest st false sf up dur url body tok =
          { result := Except.ok v, queued := 0, upstream := 0, redis := st }) := by
  constructor
  · intro st sf up dur url tok v hAvail hHit hTruthy
    simp [makeGetRequest, safeRedisCall, hAvail, hHit, jsTruthyOptStr, hTruthy]
  · intro st sf up dur url body tok v hAvail hHit hTruthy
    simp [makePostRequest, safeRedisCall, hAvail, hHit, jsTruthyOptStr, hTruthy]

/-- Witness for C5: a concrete cache state with one live GET entry and one
live POST entry is served from cache with zero upstream calls. -/
theorem gateway_cache_hit_no_upstream_witness :
    makeGetRequest
      { unavailable := false, hasLoggedError := false,
        store := [(getCacheKey none "https://api.trakt.tv/shows/popular?", "cachedShows")] }
      false false (UpstreamOutcome.ok "fresh") 86400
      "https://api.trakt.tv/shows/popular?" none =
      { result := Except.ok "cachedShows", queued := 0, upstream := 0,
        redis :=
          { unavailable := false, hasLoggedError := false,
            store := [(getCacheKey none "https://api.trakt.tv/shows/popular?", "cachedShows")] } }
    ∧ makePostRequest
      { unavailable := false, hasLoggedError := false,
        store := [(postCacheKey none "https://api.trakt.tv/sync/history" "b", "cachedPost")] }
      false false (UpstreamOutcome.ok "fresh") 86400
      "https://api.trakt.tv/sync/history" "b" none =
      { result := Except.ok "cachedPost", queued := 0, upstream := 0,
        redis :=
          { unavailable := false, hasLoggedError := false,
            store := [(postCacheKey none "https://api.trakt.tv/sync/history" "b", "cachedPost")] } } :=
  ⟨gateway_cache_hit_no_upstream.1 _ false (UpstreamOutcome.ok "fresh") 86400
      _ none "cachedShows" rfl (by decide) (by decide),
   gateway_cache_hit_no_upstream.2 _ false (UpstreamOutcome.ok "fresh") 86400
      _ "b" none "cachedPost" rfl (by decide) (by decide)⟩

/-- C6: the cache is fail-open.  When Redis is marked unavailable every
operation (get or set) returns `null` and leaves the entire state — in
particular the store — untouched; when a raw operation errors, the call
returns `null` instead of surfacing the error, leaves the store unchanged
and marks Redis unavailable; and the `ready` event handler clears the
unavailable flag when the store reconnects.  `safeRedisCall` is total
with result type `Option String`, so no cache error is ever surfaced. -/
theorem cache_fail_open :
    (∀ (st : RedisState) (f : Bool) (op : RedisOp),
        st.unavailable = true → safeRedisCall st f op = (none, st))
    ∧ (∀ (st : RedisState) (op : RedisOp),
        st.unavailable = false →
        safeRedisCall st true op = (none, { st with unavailable := true }))
    ∧ (∀ st : RedisState, st.unavailable = true → (onReady st).unavailable = false) := by
  refine ⟨?_, ?_, ?_⟩
  · intro st f op h
    simp [safeRedisCall, h]
  · intro st op h
    simp [safeRedisCall, h]
  · intro st h
    simp [onReady, h]

/-- Witness for C6: concrete unavailable, erroring and reconnecting states. -/
theorem cache_fail_open_witness :
    safeRedisCall { unavailable := true, hasLoggedError := true, store := [("k", "v")] }
        false (RedisOp.setEx "k" "w" 60) =
      (none, { unavailable := true, hasLoggedError := true, store := [("k", "v")] })
    ∧ safeRedisCall { unavailable := false, hasLoggedError := false, store := [("k", "v")] }
        true (RedisOp.get "k") =
      (none, { unavailable := true, hasLoggedError := false, store := [("k", "v")] })
    ∧ (onReady { unavailable := true, hasLoggedError := true, store := [] }).unavailable
        = false :=
  ⟨cache_fail_open.1 _ false (RedisOp.setEx "k" "w" 60) rfl,
   cache_fail_open.2.1 _ (RedisOp.get "k") rfl,
   cache_fail_open.2.2 _ rfl⟩

/-- C8 counterexample: "xh" is not of the form `<n>d` / `<n>h`, and
`parseCacheDuration` does throw on it, but the interval computation of
`handleTraktHistory` does not: `parseInt("x", 10)` is `NaN`, the unit
switch sees `h`, and the block returns `NaN` milliseconds without
throwing — refuting the claim that both parses throw on every malformed
string. -/
theorem intervalInMs_silent_on_malformed_prefix :
    isDurationForm "xh" = false
    ∧ intervalInMs "xh" = Except.ok none
    ∧ parseCacheDuration "xh" =
        Except.error "Invalid cache duration format. Use d for days or h for hours." := by
  refine ⟨?_, ?_, ?_⟩ <;> decide

/-- C8 (amended): `parseCacheDuration` throws on exactly the strings not of
the form `<digits>d` / `<digits>h`; the interval computation of
`handleTraktHistory` throws exactly when the final character is neither
`h` nor `d`, and a string with a valid unit but a non-numeric prefix
yields a `NaN` interval without throwing. -/
theorem duration_parsing_amended :
    (∀ s : String, (∃ e, parseCacheDuration s = Except.error e) ↔ isDurationForm s = false)
    ∧ (∀ s : String,
        (∃ e, intervalInMs s = Except.error e) ↔
          (jsSliceLast s ≠ "h" ∧ jsSliceLast s ≠ "d"))
    ∧ (∀ s : String, (jsSliceLast s = "h" ∨ jsSliceLast s = "d") →
        jsParseInt (jsSliceDropLast s) = none → intervalInMs s = Except.ok none) := by
  refine ⟨?_, ?_, ?_⟩
  · intro s
    constructor
    · rintro ⟨e, he⟩
      by_contra hform
      simp only [Bool.not_eq_false] at hform
      simp only [parseCacheDuration, if_pos hform] at he
      split at he <;> exact Except.noConfusion he
    · intro hform
      exact ⟨"Invalid cache duration format. Use d for days or h for hours.",
        by simp [parseCacheDuration, hform]⟩
  · intro s
    unfold intervalInMs
    by_cases hh : jsSliceLast s = "h"
    · simp [hh]
    · by_cases hd : jsSliceLast s = "d"
      · simp [hh, hd]
      · simp [hh, hd]
  · intro s hu hp
    unfold intervalInMs
    rcases hu with h | h <;> simp [h, hp]

/-- Witness for C8 (amended): concrete malformed strings for each clause:
"5x" has a bad unit (both parses throw), "qd" has a valid unit with a
non-numeric prefix (NaN without a throw). -/
theorem duration_parsing_amended_witness :
    (∃ e, parseCacheDuration "5x" = Except.error e)
    ∧ (∃ e, intervalInMs "5x" = Except.error e)
    ∧ intervalInMs "qd" = Except.ok none :=
  ⟨(duration_parsing_amended.1 "5x").2 (by decide),
   (duration_parsing_amended.2.1 "5x").2 (by decide),
   duration_parsing_amended.2.2 "qd" (Or.inr (by decide)) (by decide)⟩

/-- C9: with a `sortBy` the list fetch sends no pagination parameters (the
full list is requested) and sorts locally with the stable comparator;
concretely, years [2001, 1999, 2010] under `sortBy=year, sortHow=desc`
come out [2010, 2001, 1999], windowing that result with skip=1, limit=1
yields [2001], and the default direction is ascending with ties keeping
input order (years [2005, 2005, 2001] keep the two 2005 items in input
order). -/
theorem fetchListItems_local_sort_and_window :
    (∀ (items : List TraktListItem) (page limit : Option Nat) (sb sh : String),
        (fetchListItems items page limit (some sb) sh).1 = none)
    ∧ ((fetchListItems
          [{ rank := 1, listed_at := 10, movie := some { title := "a", year := some 2001 },
             show_ := none },
           { rank := 2, listed_at := 20, movie := some { title := "b", year := some 1999 },
             show_ := none },
           { rank := 3, listed_at := 30, movie := some { title := "c", year := some 2010 },
             show_ := none }] none none (some "year") "desc").2.map yearKey =
        [2010, 2001, 1999])
    ∧ ((windowSlice 1 1 (fetchListItems
          [{ rank := 1, listed_at := 10, movie := some { title := "a", year := some 2001 },
             show_ := none },
           { rank := 2, listed_at := 20, movie := some { title := "b", year := some 1999 },
             show_ := none },
           { rank := 3, listed_at := 30, movie := some { title := "c", year := some 2010 },
             show_ := none }] none none (some "year") "desc").2).map yearKey = [2001])
    ∧ ((fetchListItems
          [{ rank := 1, listed_at := 10, movie := some { title := "x", year := some 2005 },
             show_ := none },
           { rank := 2, listed_at := 20, movie := some { title := "y", year := some 2005 },
             show_ := none },
           { rank := 3, listed_at := 30, movie := some { title := "z", year := some 2001 },
             show_ := none }] none none (some "year") "asc").2.map
            (fun it => (yearKey it, titleKey it)) =
        [(2001, "z"), (2005, "x"), (2005, "y")]) := by
  refine ⟨?_, ?_, ?_, ?_⟩
  · intro items page limit sb sh
    simp [fetchListItems]
  · decide
  · decide
  · decide

/-- C10 counterexample: an item with an empty `name` and a title "T", whose
id is in the persisted history, gets name "✔️ T" — the marker prefixed to
the `title` fallback — and not "✔️ " (the marker prefixed to the existing
name), refuting the claim that the name changes only by prefixing the
configured watched marker. -/
theorem annotateResults_overwrites_falsy_name :
    (annotateResults none
        { rows := [{ id := 1, username := "u", imdb := some "tt1", tmdb := none,
                     rtype := "movie", watched := "w", title := "T" }], nextId := 2 }
        "u" "movies"
        [{ id := "tt1", name := some "", title := some "T", rest := "x" }]).map
      Content.name = [some "✔️ T"]
    ∧ (some "✔️ T" : Option String) ≠ some ("✔️" ++ " " ++ "") := by
  refine ⟨?_, ?_⟩ <;> decide

/-- C10 (amended): the annotation pass returns a list of the same length and
order; each item's fields other than `name` are unchanged; `name` is
changed only for items whose stringified id appears among the persisted
non-null imdb ids for the user and requested type, and then becomes the
watched marker, a space, and the item's own `name` when that is truthy,
else its `title` (template-stringified). -/
theorem annotateResults_frame :
    ∀ (we : Option String) (t : Table) (uname qtype : String)
      (rs : List Content) (k : Nat),
      (annotateResults we t uname qtype rs).length = rs.length
      ∧ ((annotateResults we t uname qtype rs).get? k).map Content.id =
          (rs.get? k).map Content.id
      ∧ ((annotateResults we t uname qtype rs).get? k).map Content.title =
          (rs.get? k).map Content.title
      ∧ ((annotateResults we t uname qtype rs).get? k).map Content.rest =
          (rs.get? k).map Content.rest
      ∧ ((annotateResults we t uname qtype rs).get? k).map Content.name =
          (rs.get? k).map (fun c =>
            if (traktIdsFor t uname qtype).contains c.id then
              some (emojiOf we ++ " " ++
                jsTemplateStr (if jsTruthyOptStr c.name then c.name else c.title))
            else c.name) := by
  intro we t uname qtype rs k
  refine ⟨by simp [annotateResults], ?_, ?_, ?_, ?_⟩ <;>
  · simp only [annotateResults, List.get?_map]
    cases rs.get? k with
    | none => rfl
    | some c =>
      by_cases h : c.id ∈ traktIdsFor t uname qtype <;> simp [h]

/-- C2: whenever the first authenticated history fetch attempt of
`handleTraktHistory` fails with a 401 — surfaced as `token_expired`,
whether it is the movies fetch or the shows fetch of the `Promise.all`
pair that rejects — and the refresh succeeds, the block uses exactly two
access tokens (the stored one and then the refreshed one: the fetch pair
is retried exactly once, with the new token), performs exactly one
refresh, persists the new token pair, and if that single retry fails its
error is surfaced as the block's result with no further retry. -/
theorem history_401_refresh_retry_once :
    ∀ (o : SyncOracle) (uname : String) (u : UserRow) (db : SyncDB) (nt : TokenPair),
      promiseAll2 (fetchUserHistory (o.rawMovies u.access_token))
          (fetchUserHistory (o.rawShows u.access_token)) = Except.error "token_expired" →
      o.refresh u.refresh_token = Except.ok nt →
      (fetchAndSaveBlock o uname u db).tokensUsed = [u.access_token, nt.access_token]
      ∧ (fetchAndSaveBlock o uname u db).refreshCalls = 1
      ∧ (fetchAndSaveBlock o uname u db).db.user = (updateTokensInDb nt db).user
      ∧ (∀ e2, promiseAll2 (fetchUserHistory (o.rawMovies nt.access_token))
            (fetchUserHistory (o.rawShows nt.access_token)) = Except.error e2 →
          (fetchAndSaveBlock o uname u db).result = Except.error e2) := by
  intro o uname u db nt hfirst hrefresh
  have hred : fetchAndSaveBlock o uname u db =
      retryStage o uname u.access_token nt (updateTokensInDb nt db) := by
    unfold fetchAndSaveBlock
    rw [hfirst, hrefresh]
    rfl
  rw [hred]
  unfold retryStage
  cases hretry : promiseAll2 (fetchUserHistory (o.rawMovies nt.access_token))
      (fetchUserHistory (o.rawShows nt.access_token)) with
  | ok pair =>
    exact ⟨rfl, rfl, rfl, fun e2 he2 => Except.noConfusion he2⟩
  | error e3 =>
    refine ⟨rfl, rfl, rfl, ?_⟩
    intro e2 he2
    cases he2
    rfl

/-- Witness for C2: a concrete oracle in which the movies fetch succeeds and
it is the shows fetch that answers 401 for the old token (and fails with
"boom" for the new one); the block retries once with the new token,
persists the pair, and surfaces "boom". -/
theorem history_401_refresh_retry_once_witness :
    (fetchAndSaveBlock
      { rawMovies := fun _ => FetchOutcome.ok [],
        rawShows := fun tk => if tk = "oldA" then FetchOutcome.http 401 "unauthorized"
          else FetchOutcome.err "boom",
        refresh := fun _ => Except.ok { access_token := "newA", refresh_token := "newR" },
        failMovies := fun _ => false, failShows := fun _ => false }
      "user1" { access_token := "oldA", refresh_token := "oldR", last_fetched_at := none }
      { user := some { access_token := "oldA", refresh_token := "oldR",
                       last_fetched_at := none },
        hist := { rows := [], nextId := 1 } }).tokensUsed = ["oldA", "newA"]
    ∧ (fetchAndSaveBlock
      { rawMovies := fun _ => FetchOutcome.ok [],
        rawShows := fun tk => if tk = "oldA" then FetchOutcome.http 401 "unauthorized"
          else FetchOutcome.err "boom",
        refresh := fun _ => Except.ok { access_token := "newA", refresh_token := "newR" },
        failMovies := fun _ => false, failShows := fun _ => false }
      "user1" { access_token := "oldA", refresh_token := "oldR", last_fetched_at := none }
      { user := some { access_token := "oldA", refresh_token := "oldR",
                       last_fetched_at := none },
        hist := { rows := [], nextId := 1 } }).result = Except.error "boom" := by
  have h := history_401_refresh_retry_once
    { rawMovies := fun _ => FetchOutcome.ok [],
      rawShows := fun tk => if tk = "oldA" then FetchOutcome.http 401 "unauthorized"
        else FetchOutcome.err "boom",
      refresh := fun _ => Except.ok { access_token := "newA", refresh_token := "newR" },
      failMovies := fun _ => false, failShows := fun _ => false }
    "user1" { access_token := "oldA", refresh_token := "oldR", last_fetched_at := none }
    { user := some { access_token := "oldA", refresh_token := "oldR",
                     last_fetched_at := none },
      hist := { rows := [], nextId := 1 } }
    { access_token := "newA", refresh_token := "newR" }
    (by decide) (by decide)
  exact ⟨h.1, h.2.2.2 "boom" (by decide)⟩

/-- The fetch/refresh/save block never touches `last_fetched_at`: on every
path (first attempt, failed refresh, retry, non-401 error) the user row
of the resulting state keeps its original stamp — token persistence only
replaces the token columns. -/
theorem block_user_frame (o : SyncOracle) (uname : String) (u : UserRow) (db : SyncDB)
    (huser : db.user = some u) :
    (fetchAndSaveBlock o uname u db).db.user.map UserRow.last_fetched_at =
      some u.last_fetched_at := by
  unfold fetchAndSaveBlock
  split
  · simp [huser]
  · split
    · split
      · simp [huser]
      · unfold retryStage
        split
        · simp [updateTokensInDb, huser]
        · simp [updateTokensInDb, huser]
    · simp [huser]

/-- C3: a failing row write inside `saveUserWatchedHistory` makes that call
fail with the history table rolled back to exactly its pre-call state
(conjunct 1: every failing run leaves the table unchanged; conjunct 2: a
write failure at any index of the batch does make the run fail); a
failure of either the movies or the shows batch save makes the
`Promise.all` of the two saves fail (conjunct 3); the sync block's result
is exactly that combined save result, both on the first-attempt path and
on the post-refresh retry path (conjuncts 4 and 5); and whenever the
block fails, `handleTraktHistory` reaches the outer catch before the
stamp update, so `last_fetched_at` is not advanced for the user
(conjunct 6).  Together: a row-write failure in any of the four batch
saves rolls back its transaction and leaves `last_fetched_at` untouched. -/
theorem save_rollback_and_stamp_not_advanced :
    (∀ (f : Nat → Bool) (uname : String) (hist : List HistItem) (t : Table),
        (saveUserWatchedHistory f uname hist t).1.isOk = false →
        (saveUserWatchedHistory f uname hist t).2 = t)
    ∧ (∀ (f : Nat → Bool) (uname : String) (hist : List HistItem) (t : Table) (k : Nat),
        k < hist.length → f k = true →
        (saveUserWatchedHistory f uname hist t).1.isOk = false)
    ∧ (∀ (o : SyncOracle) (uname : String) (mh sh : List HistItem) (t : Table),
        ((saveUserWatchedHistory o.failMovies uname mh t).1.isOk = false
          ∨ (saveUserWatchedHistory o.failShows uname sh
              (saveUserWatchedHistory o.failMovies uname mh t).2).1.isOk = false) →
        (saveBoth o uname mh sh t).1.isOk = false)
    ∧ (∀ (o : SyncOracle) (uname : String) (u : UserRow) (db : SyncDB)
        (mh sh : List HistItem),
        promiseAll2 (fetchUserHistory (o.rawMovies u.access_token))
            (fetchUserHistory (o.rawShows u.access_token)) = Except.ok (mh, sh) →
        (fetchAndSaveBlock o uname u db).result = (saveBoth o uname mh sh db.hist).1)
    ∧ (∀ (o : SyncOracle) (uname : String) (u : UserRow) (db : SyncDB)
        (nt : TokenPair) (mh sh : List HistItem),
        promiseAll2 (fetchUserHistory (o.rawMovies u.access_token))
            (fetchUserHistory (o.rawShows u.access_token)) = Except.error "token_expired" →
        o.refresh u.refresh_token = Except.ok nt →
        promiseAll2 (fetchUserHistory (o.rawMovies nt.access_token))
            (fetchUserHistory (o.rawShows nt.access_token)) = Except.ok (mh, sh) →
        (fetchAndSaveBlock o uname u db).result =
          (saveBoth o uname mh sh (updateTokensInDb nt db).hist).1)
    ∧ (∀ (o : SyncOracle) (now uname : String) (u : UserRow) (db : SyncDB),
        db.user = some u →
        (fetchAndSaveBlock o uname u db).result.isOk = false →
        (syncBlock o now uname db).user.map UserRow.last_fetched_at =
          some u.last_fetched_at) := by
  have loopRollback : ∀ (f : Nat → Bool) (uname : String) (t0 : Table)
      (items : List HistItem) (k : Nat) (cur : Table),
      (saveLoop f uname t0 k items cur).1.isOk = false →
      (saveLoop f uname t0 k items cur).2 = t0 := by
    intro f uname t0 items
    induction items with
    | nil => intro k cur h; exact absurd h (by simp [saveLoop, Except.isOk, Except.toBool])
    | cons it rest ih =>
      intro k cur h
      rw [saveLoop] at h ⊢
      cases hg : toGood it with
      | none => simp [hg]
      | some g =>
        simp only [hg] at h ⊢
        by_cases hf : f k
        · simp [hf]
        · simp only [hf, if_neg, Bool.false_eq_true, if_false] at h ⊢
          exact ih (k + 1) (upsertGood uname cur g) h
  have loopFails : ∀ (f : Nat → Bool) (uname : String) (t0 : Table)
      (items : List HistItem) (j : Nat) (cur : Table) (i : Nat),
      i < items.length → f (j + i) = true →
      (saveLoop f uname t0 j items cur).1.isOk = false := by
    intro f uname t0 items
    induction items with
    | nil => intro j cur i hi; exact absurd hi (by simp)
    | cons it rest ih =>
      intro j cur i hi hf
      rw [saveLoop]
      cases hg : toGood it with
      | none => simp [Except.isOk, Except.toBool]
      | some g =>
        simp only
        by_cases hfj : f j
        · simp [hfj, Except.isOk, Except.toBool]
        · simp only [hfj, Bool.false_eq_true, if_false]
          cases i with
          | zero => exact absurd hf (by simpa using hfj)
          | succ i2 =>
            refine ih (j + 1) (upsertGood uname cur g) i2 (by simpa using hi) ?_
            have : j + 1 + i2 = j + (i2 + 1) := by omega
            rw [this]
            exact hf
  refine ⟨?_, ?_, ?_, ?_, ?_, ?_⟩
  · intro f uname hist t h
    unfold saveUserWatchedHistory at h ⊢
    by_cases he : hist.isEmpty
    · rw [if_pos he] at h
      exact absurd h (by simp [Except.isOk, Except.toBool])
    · rw [if_neg he] at h ⊢
      exact loopRollback f uname t hist 0 t h
  · intro f uname hist t k hk hf
    unfold saveUserWatchedHistory
    have hne : hist.isEmpty = false := by
      cases hist with
      | nil => exact absurd hk (by simp)
      | cons a l => rfl
    rw [hne]
    simp only [Bool.false_eq_true, if_false]
    exact loopFails f uname t hist 0 t k hk (by simpa using hf)
  · intro o uname mh sh t hor
    simp only [saveBoth]
    cases hm : (saveUserWatchedHistory o.failMovies uname mh t).1 with
    | ok v =>
      rcases hor with h1 | h2
      · rw [hm] at h1
        exact absurd h1 (by simp [Except.isOk, Except.toBool])
      · exact h2
    | error e => simp [Except.isOk, Except.toBool]
  · intro o uname u db mh sh hfetch
    unfold fetchAndSaveBlock
    rw [hfetch]
  · intro o uname u db nt mh sh hfirst hrefresh hretry
    have hred : fetchAndSaveBlock o uname u db =
        retryStage o uname u.access_token nt (updateTokensInDb nt db) := by
      unfold fetchAndSaveBlock
      rw [hfirst, hrefresh]
      rfl
    rw [hred]
    unfold retryStage
    rw [hretry]
  · intro o now uname u db huser hfail
    unfold syncBlock
    rw [huser]
    show (match (fetchAndSaveBlock o uname u db).result with
      | Except.ok _ => stampFetchedAt now ((fetchAndSaveBlock o uname u db).db)
      | Except.error _ => (fetchAndSaveBlock o uname u db).db).user.map
        UserRow.last_fetched_at = some u.last_fetched_at
    cases hres : (fetchAndSaveBlock o uname u db).result with
    | ok v =>
      rw [hres] at hfail
      exact absurd hfail (by simp [Except.isOk, Except.toBool])
    | error e =>
      exact block_user_frame o uname u db huser

/-- Witness for C3: a shows-batch write failure on the first-attempt path
(the movies batch is empty and succeeds) rolls back to the pre-call
table, makes the save pair and the block fail, and leaves
`last_fetched_at` at its old value; and a movies-batch write failure on
the post-refresh retry path also leaves the stamp untouched. -/
theorem save_rollback_and_stamp_not_advanced_witness :
    (saveUserWatchedHistory (fun k => k = 0) "u"
        [{ movie := none,
           show_ := some { ids := { imdb := some "tt9", tmdb := some 9 }, title := "S" },
           last_watched_at := "2024-02-02" }]
        { rows := [], nextId := 1 }).2 = { rows := [], nextId := 1 }
    ∧ (saveUserWatchedHistory (fun k => k = 0) "u"
        [{ movie := none,
           show_ := some { ids := { imdb := some "tt9", tmdb := some 9 }, title := "S" },
           last_watched_at := "2024-02-02" }]
        { rows := [], nextId := 1 }).1.isOk = false
    ∧ (saveBoth
        { rawMovies := fun _ => FetchOutcome.ok [],
          rawShows := fun _ => FetchOutcome.ok
            [{ movie := none,
               show_ := some { ids := { imdb := some "tt9", tmdb := some 9 }, title := "S" },
               last_watched_at := "2024-02-02" }],
          refresh := fun _ => Except.error "unused",
          failMovies := fun _ => false, failShows := fun k => k = 0 }
        "u" []
        [{ movie := none,
           show_ := some { ids := { imdb := some "tt9", tmdb := some 9 }, title := "S" },
           last_watched_at := "2024-02-02" }]
        { rows := [], nextId := 1 }).1.isOk = false
    ∧ (fetchAndSaveBlock
        { rawMovies := fun _ => FetchOutcome.ok [],
          rawShows := fun _ => FetchOutcome.ok
            [{ movie := none,
               show_ := some { ids := { imdb := some "tt9", tmdb := some 9 }, title := "S" },
               last_watched_at := "2024-02-02" }],
          refresh := fun _ => Except.error "unused",
          failMovies := fun _ => false, failShows := fun k => k = 0 }
        "u" { access_token := "a", refresh_token := "r",
              last_fetched_at := some "2024-06-01" }
        { user := some { access_token := "a", refresh_token := "r",
                         last_fetched_at := some "2024-06-01" },
          hist := { rows := [], nextId := 1 } }).result =
      (saveBoth
        { rawMovies := fun _ => FetchOutcome.ok [],
          rawShows := fun _ => FetchOutcome.ok
            [{ movie := none,
               show_ := some { ids := { imdb := some "tt9", tmdb := some 9 }, title := "S" },
               last_watched_at := "2024-02-02" }],
          refresh := fun _ => Except.error "unused",
          failMovies := fun _ => false, failShows := fun k => k = 0 }
        "u" []
        [{ movie := none,
           show_ := some { ids := { imdb := some "tt9", tmdb := some 9 }, title := "S" },
           last_watched_at := "2024-02-02" }]
        { rows := [], nextId := 1 }).1
    ∧ (syncBlock
        { rawMovies := fun _ => FetchOutcome.ok [],
          rawShows := fun _ => FetchOutcome.ok
            [{ movie := none,
               show_ := some { ids := { imdb := some "tt9", tmdb := some 9 }, title := "S" },
               last_watched_at := "2024-02-02" }],
          refresh := fun _ => Except.error "unused",
          failMovies := fun _ => false, failShows := fun k => k = 0 }
        "2025-01-01" "u"
        { user := some { access_token := "a", refresh_token := "r",
                         last_fetched_at := some "2024-06-01" },
          hist := { rows := [], nextId := 1 } }).user.map UserRow.last_fetched_at =
      some (some "2024-06-01")
    ∧ (fetchAndSaveBlock
        { rawMovies := fun tk => if tk = "oldA" then FetchOutcome.http 401 "unauthorized"
            else FetchOutcome.ok
              [{ movie := some { ids := { imdb := some "tt1", tmdb := some 5 }, title := "M" },
                 show_ := none, last_watched_at := "2024-01-01" }],
          rawShows := fun _ => FetchOutcome.ok [],
          refresh := fun _ => Except.ok { access_token := "newA", refresh_token := "newR" },
          failMovies := fun k => k = 0, failShows := fun _ => false }
        "u" { access_token := "oldA", refresh_token := "oldR",
              last_fetched_at := some "2024-06-01" }
        { user := some { access_token := "oldA", refresh_token := "oldR",
                         last_fetched_at := some "2024-06-01" },
          hist := { rows := [], nextId := 1 } }).result =
      (saveBoth
        { rawMovies := fun tk => if tk = "oldA" then FetchOutcome.http 401 "unauthorized"
            else FetchOutcome.ok
              [{ movie := some { ids := { imdb := some "tt1", tmdb := some 5 }, title := "M" },
                 show_ := none, last_watched_at := "2024-01-01" }],
          rawShows := fun _ => FetchOutcome.ok [],
          refresh := fun _ => Except.ok { access_token := "newA", refresh_token := "newR" },
          failMovies := fun k => k = 0, failShows := fun _ => false }
        "u"
        [{ movie := some { ids := { imdb := some "tt1", tmdb := some 5 }, title := "M" },
           show_ := none, last_watched_at := "2024-01-01" }] []
        (updateTokensInDb { access_token := "newA", refresh_token := "newR" }
          { user := some { access_token := "oldA", refresh_token := "oldR",
                           last_fetched_at := some "2024-06-01" },
            hist := { rows := [], nextId := 1 } }).hist).1
    ∧ (syncBlock
        { rawMovies := fun tk => if tk = "oldA" then FetchOutcome.http 401 "unauthorized"
            else FetchOutcome.ok
              [{ movie := some { ids := { imdb := some "tt1", tmdb := some 5 }, title := "M" },
                 show_ := none, last_watched_at := "2024-01-01" }],
          rawShows := fun _ => FetchOutcome.ok [],
          refresh := fun _ => Except.ok { access_token := "newA", refresh_token := "newR" },
          failMovies := fun k => k = 0, failShows := fun _ => false }
        "2025-01-01" "u"
        { user := some { access_token := "oldA", refresh_token := "oldR",
                         last_fetched_at := some "2024-06-01" },
          hist := { rows := [], nextId := 1 } }).user.map UserRow.last_fetched_at =
      some (some "2024-06-01") := by
  refine ⟨?_, ?_, ?_, ?_, ?_, ?_, ?_⟩
  · exact save_rollback_and_stamp_not_advanced.1 (fun k => k = 0) "u" _ _ (by decide)
  · exact save_rollback_and_stamp_not_advanced.2.1 (fun k => k = 0) "u" _ _ 0
      (by decide) (by decide)
  · exact save_rollback_and_stamp_not_advanced.2.2.1 _ "u" _ _ _ (Or.inr (by decide))
  · exact save_rollback_and_stamp_not_advanced.2.2.2.1 _ "u"
      { access_token := "a", refresh_token := "r", last_fetched_at := some "2024-06-01" }
      _ _ _ (by decide)
  · exact save_rollback_and_stamp_not_advanced.2.2.2.2.2 _ "2025-01-01" "u"
      { access_token := "a", refresh_token := "r", last_fetched_at := some "2024-06-01" }
      _ rfl (by decide)
  · exact save_rollback_and_stamp_not_advanced.2.2.2.2.1 _ "u"
      { access_token := "oldA", refresh_token := "oldR",
        last_fetched_at := some "2024-06-01" }
      _ { access_token := "newA", refresh_token := "newR" } _ _
      (by decide) (by decide) (by decide)
  · exact save_rollback_and_stamp_not_advanced.2.2.2.2.2 _ "2025-01-01" "u"
      { access_token := "oldA", refresh_token := "oldR",
        last_fetched_at := some "2024-06-01" }
      _ rfl (by decide)

/-! ## Idempotence analysis of the upsert loop (claim C7)

The update branch of the loop is isolated as `upd`, and `updBatch` is a
run of the loop in which every item takes the update branch (which is
what a second run over the same batch does once every key is present). -/

/-- The update branch of the upsert loop, as a table transformer. -/
def upd (uname : String) (g : GoodItem) (t : Table) : Table :=
  { t with rows := updateFirst (rowMatches uname g.imdb) (setPayload g) t.rows }

/-- A run of the loop in which every step takes the update branch. -/
def updBatch (uname : String) (t : Table) (gs : List GoodItem) : Table :=
  gs.foldl (fun t g => upd uname g t) t

/-- The last item of the batch carrying the given imdb id: the values its
UPDATE writes are the ones that survive the run. -/
def lastFor (gs : List GoodItem) (i : String) : Option GoodItem :=
  (gs.filter (fun g => g.imdb = some i)).getLast?

/-- After a run, the first row matching each batch key holds exactly the
payload written by the last batch item with that key. -/
def QProp (uname : String) (gs : List GoodItem) (t : Table) : Prop :=
  ∀ i, (∃ g ∈ gs, g.imdb = some i) →
    ∀ r, t.rows.find? (rowMatches uname (some i)) = some r →
      ∃ h, lastFor gs i = some h ∧ setPayload h r = r

/-- At most one row per (username, non-null imdb_id). -/
def uniqueKeys (t : Table) : Prop :=
  ∀ (un i : String), t.rows.countP (fun r => rowMatches un (some i) r) ≤ 1

theorem any_updateFirst (p q : α → Bool) (f : α → α) (hq : ∀ x, q (f x) = q x) :
    ∀ l : List α, (updateFirst p f l).any q = l.any q := by
  intro l
  induction l with
  | nil => rfl
  | cons x xs ih =>
    by_cases hp : p x
    · simp [updateFirst, hp, hq]
    · simp [updateFirst, hp, ih]

theorem countP_updateFirst (p q : α → Bool) (f : α → α) (hq : ∀ x, q (f x) = q x) :
    ∀ l : List α, (updateFirst p f l).countP q = l.countP q := by
  intro l
  induction l with
  | nil => rfl
  | cons x xs ih =>
    by_cases hp : p x
    · simp [updateFirst, hp, List.countP_cons, hq]
    · simp [updateFirst, hp, List.countP_cons, ih]

theorem find?_updateFirst_none (p : α → Bool) (f : α → α) :
    ∀ l : List α, l.find? p = none → updateFirst p f l = l := by
  intro l
  induction l with
  | nil => intro _; rfl
  | cons x xs ih =>
    intro h
    by_cases hp : p x
    · rw [List.find?_cons_of_pos _ hp] at h
      exact Option.noConfusion h
    · rw [List.find?_cons_of_neg _ hp] at h
      simp [updateFirst, hp, ih h]

theorem find?_updateFirst_self (p : α → Bool) (f : α → α) (hp : ∀ x, p (f x) = p x) :
    ∀ (l : List α) (r : α), l.find? p = some r →
      (updateFirst p f l).find? p = some (f r) := by
  intro l
  induction l with
  | nil => intro r h; exact Option.noConfusion h
  | cons x xs ih =>
    intro r h
    by_cases hpx : p x
    · rw [List.find?_cons_of_pos _ hpx] at h
      cases h
      simp [updateFirst, hpx, List.find?_cons_of_pos _ ((hp x).trans (by simp [hpx]))]
    · rw [List.find?_cons_of_neg _ hpx] at h
      simp [updateFirst, hpx, List.find?_cons_of_neg _ hpx, ih r h]

theorem find?_updateFirst_other (p q : α → Bool) (f : α → α)
    (hq : ∀ x, q (f x) = q x) (hdisj : ∀ x, p x = true → q x = true → False) :
    ∀ l : List α, (updateFirst p f l).find? q = l.find? q := by
  intro l
  induction l with
  | nil => rfl
  | cons x xs ih =>
    by_cases hpx : p x
    · have hqx : q x = false := by
        by_contra hc
        exact hdisj x hpx (by simpa using hc)
      have hqfx : q (f x) = false := (hq x).trans hqx
      simp [updateFirst, hpx, List.find?_cons_of_neg, hqx, hqfx]
    · by_cases hqx : q x
      · simp [updateFirst, hpx, List.find?_cons_of_pos _ hqx]
      · simp [updateFirst, hpx, List.find?_cons_of_neg _ hqx, ih]

theorem updateFirst_comm (p q : α → Bool) (f g : α → α)
    (hqf : ∀ x, q (f x) = q x) (hpg : ∀ x, p (g x) = p x)
    (hdisj : ∀ x, p x = true → q x = true → False) :
    ∀ l : List α, updateFirst p f (updateFirst q g l) = updateFirst q g (updateFirst p f l) := by
  intro l
  induction l with
  | nil => rfl
  | cons x xs ih =>
    by_cases hpx : p x
    · have hqx : q x = false := by
        by_contra hc
        exact hdisj x hpx (by simpa using hc)
      have hqfx : q (f x) = false := (hqf x).trans hqx
      simp [updateFirst, hpx, hqx, hqfx]
    · by_cases hqx : q x
      · have hpgx : p (g x) = false := (hpg x).trans (by simpa using hpx)
        simp [updateFirst, hpx, hqx, hpgx]
      · simp [updateFirst, hpx, hqx, ih]

theorem updateFirst_compose (p : α → Bool) (f g : α → α) (hpg : ∀ x, p (g x) = p x) :
    ∀ l : List α, updateFirst p f (updateFirst p g l) =
      updateFirst p (fun x => f (g x)) l := by
  intro l
  induction l with
  | nil => rfl
  | cons x xs ih =>
    by_cases hpx : p x
    · have h2 : p (g x) = true := (hpg x).trans hpx
      simp [updateFirst, hpx, h2]
    · simp [updateFirst, hpx, ih]

theorem updateFirst_fix (p : α → Bool) (f : α → α) :
    ∀ (l : List α) (r : α), l.find? p = some r → f r = r → updateFirst p f l = l := by
  intro l
  induction l with
  | nil => intro r h; exact fun _ => Option.noConfusion h
  | cons x xs ih =>
    intro r h hfix
    by_cases hpx : p x
    · rw [List.find?_cons_of_pos _ hpx] at h
      cases h
      simp [updateFirst, hpx, hfix]
    · rw [List.find?_cons_of_neg _ hpx] at h
      simp [updateFirst, hpx, ih r h hfix]

theorem find?_append_none (p : α → Bool) (l1 l2 : List α) (h : l1.find? p = none) :
    (l1 ++ l2).find? p = l2.find? p := by
  induction l1 with
  | nil => rfl
  | cons x xs ih =>
    by_cases hpx : p x
    · rw [List.find?_cons_of_pos _ hpx] at h
      exact Option.noConfusion h
    · rw [List.find?_cons_of_neg _ hpx] at h
      simp [List.find?_cons_of_neg _ hpx, ih h]

theorem find?_append_some (p : α → Bool) (l1 l2 : List α) (r : α)
    (h : l1.find? p = some r) : (l1 ++ l2).find? p = some r := by
  induction l1 with
  | nil => exact Option.noConfusion h
  | cons x xs ih =>
    by_cases hpx : p x
    · rw [List.find?_cons_of_pos _ hpx] at h
      simpa [List.find?_cons_of_pos _ hpx] using h
    · rw [List.find?_cons_of_neg _ hpx] at h
      simp [List.find?_cons_of_neg _ hpx, ih h]

theorem rowMatches_setPayload (un : String) (i : Option String) (g : GoodItem) (r : Row) :
    rowMatches un i (setPayload g r) = rowMatches un i r := rfl

theorem setPayload_setPayload (d g : GoodItem) (r : Row) :
    setPayload d (setPayload g r) = setPayload d r := rfl

theorem sqlEq_some (x a : Option String) (h : sqlEqOptStr x a = true) :
    ∃ s, x = some s ∧ a = some s := by
  cases x with
  | none => exact absurd h (by simp [sqlEqOptStr])
  | some s =>
    cases a with
    | none => exact absurd h (by simp [sqlEqOptStr])
    | some b =>
      simp only [sqlEqOptStr, decide_eq_true_eq] at h
      exact ⟨s, rfl, by rw [h]⟩

theorem rowMatches_disjoint (un : String) (a b : Option String) (hab : a ≠ b) (x : Row) :
    rowMatches un a x = true → rowMatches un b x = true → False := by
  intro h1 h2
  simp only [rowMatches, Bool.and_eq_true] at h1 h2
  obtain ⟨s, hxs, has⟩ := sqlEq_some x.imdb a h1.2
  obtain ⟨s2, hxs2, hbs⟩ := sqlEq_some x.imdb b h2.2
  rw [hxs] at hxs2
  cases hxs2
  exact hab (has.trans hbs.symm)

theorem any_upd_eq (un : String) (i : Option String) (g : GoodItem) (t : Table) :
    (upd un g t).rows.any (rowMatches un i) = t.rows.any (rowMatches un i) :=
  any_updateFirst _ _ _ (fun x => rowMatches_setPayload un i g x) t.rows

theorem any_upsert_mono (un : String) (i : Option String) (g : GoodItem) (t : Table)
    (h : t.rows.any (rowMatches un i) = true) :
    (upsertGood un t g).rows.any (rowMatches un i) = true := by
  unfold upsertGood
  by_cases hc : t.rows.any (rowMatches un g.imdb)
  · rw [if_pos hc]
    rw [any_updateFirst _ _ _ (fun x => rowMatches_setPayload un i g x)]
    exact h
  · rw [if_neg hc]
    simp only [insertRow, List.any_append]
    rw [h]
    rfl

theorem rowMatches_newRow (un : String) (i : String) (g : GoodItem) (nid : Nat)
    (hg : g.imdb = some i) :
    rowMatches un (some i)
      { id := nid, username := un, imdb := g.imdb, tmdb := g.tmdb,
        rtype := g.mtype, watched := g.watched, title := g.title } = true := by
  simp [rowMatches, sqlEqOptStr, hg]

theorem any_upsert_self (un : String) (g : GoodItem) (i : String) (hg : g.imdb = some i)
    (t : Table) : (upsertGood un t g).rows.any (rowMatches un (some i)) = true := by
  unfold upsertGood
  by_cases hc : t.rows.any (rowMatches un g.imdb)
  · rw [if_pos hc]
    rw [any_updateFirst _ _ _ (fun x => rowMatches_setPayload un (some i) g x)]
    rw [hg] at hc
    exact hc
  · rw [if_neg hc]
    simp only [insertRow, List.any_append]
    have := rowMatches_newRow un i g t.nextId hg
    simp [this]

theorem any_batch_mono (un : String) (i : Option String) (gs : List GoodItem) :
    ∀ t : Table, t.rows.any (rowMatches un i) = true →
      (upsertBatch un t gs).rows.any (rowMatches un i) = true := by
  induction gs with
  | nil => intro t h; exact h
  | cons a rest ih =>
    intro t h
    exact ih _ (any_upsert_mono un i a t h)

theorem any_batch_present (un : String) (gs : List GoodItem)
    (hall : ∀ g ∈ gs, g.imdb.isSome = true) :
    ∀ t, ∀ g ∈ gs, (upsertBatch un t gs).rows.any (rowMatches un g.imdb) = true := by
  induction gs with
  | nil => intro t g hg; cases hg
  | cons a rest ih =>
    intro t g hg
    rcases List.mem_cons.mp hg with hga | hgrest
    · subst hga
      obtain ⟨i, hi⟩ := Option.isSome_iff_exists.mp (hall g (List.mem_cons_self g rest))
      have h1 := any_upsert_self un g i hi t
      have h2 := any_batch_mono un (some i) rest (upsertGood un t g) h1
      rw [hi]
      exact h2
    · exact ih (fun x hx => hall x (List.mem_cons_of_mem a hx)) (upsertGood un t a) g hgrest

theorem upsert_eq_upd (un : String) (g : GoodItem) (t : Table)
    (h : t.rows.any (rowMatches un g.imdb) = true) :
    upsertGood un t g = upd un g t := by
  unfold upsertGood upd
  rw [if_pos h]

theorem batch_eq_updBatch (un : String) (gs : List GoodItem) :
    ∀ t, (∀ g ∈ gs, t.rows.any (rowMatches un g.imdb) = true) →
      upsertBatch un t gs = updBatch un t gs := by
  induction gs with
  | nil => intro t _; rfl
  | cons a rest ih =>
    intro t h
    have ha := h a (List.mem_cons_self a rest)
    have step : upsertBatch un t (a :: rest) = upsertBatch un (upd un a t) rest := by
      show upsertBatch un (upsertGood un t a) rest = _
      rw [upsert_eq_upd un a t ha]
    rw [step]
    show upsertBatch un (upd un a t) rest = updBatch un (upd un a t) rest
    refine ih (upd un a t) (fun g hg => ?_)
    rw [any_upd_eq]
    exact h g (List.mem_cons_of_mem a hg)

theorem getLast?_cons_nonempty (a : α) (l : List α) (h : l ≠ []) :
    (a :: l).getLast? = l.getLast? := by
  cases l with
  | nil => exact absurd rfl h
  | cons b m => exact List.getLast?_cons_cons

theorem lastFor_cons_eq (g : GoodItem) (rest : List GoodItem) (i : String)
    (hcond : g.imdb = some i → ∃ d ∈ rest, d.imdb = some i) :
    lastFor (g :: rest) i = lastFor rest i := by
  unfold lastFor
  by_cases hg : g.imdb = some i
  · obtain ⟨d, hd, him⟩ := hcond hg
    have hmem : d ∈ rest.filter (fun x => x.imdb = some i) :=
      List.mem_filter.mpr ⟨hd, by simp [him]⟩
    rw [List.filter_cons_of_pos (by simp [hg])]
    exact getLast?_cons_nonempty _ _ (List.ne_nil_of_mem hmem)
  · rw [List.filter_cons_of_neg (by simp [hg])]

theorem QProp_tail (un : String) (g : GoodItem) (rest : List GoodItem) (t : Table)
    (hq : QProp un (g :: rest) t) : QProp un rest t := by
  intro i hwit r hfind
  obtain ⟨d, hd, him⟩ := hwit
  obtain ⟨h, hlast, hset⟩ := hq i ⟨d, List.mem_cons_of_mem g hd, him⟩ r hfind
  refine ⟨h, ?_, hset⟩
  rw [← hlast]
  exact (lastFor_cons_eq g rest i (fun _ => ⟨d, hd, him⟩)).symm

theorem upsertBatch_append_single (un : String) (t : Table) (gs : List GoodItem)
    (g : GoodItem) :
    upsertBatch un t (gs ++ [g]) = upsertGood un (upsertBatch un t gs) g := by
  unfold upsertBatch
  rw [List.foldl_append]
  rfl

theorem run1_QProp (un : String) :
    ∀ (gs : List GoodItem), (∀ g ∈ gs, g.imdb.isSome = true) →
      ∀ t, QProp un gs (upsertBatch un t gs) := by
  intro gs
  induction gs using List.reverseRecOn with
  | nil =>
    intro _ t i hi
    obtain ⟨g, hg, _⟩ := hi
    cases hg
  | append_singleton gs g ih =>
    intro hall t i hwit r hfind
    have hallgs : ∀ x ∈ gs, x.imdb.isSome = true :=
      fun x hx => hall x (List.mem_append_left _ hx)
    obtain ⟨iG, hgiG⟩ := Option.isSome_iff_exists.mp
      (hall g (List.mem_append_right _ (List.mem_singleton.mpr rfl)))
    rw [upsertBatch_append_single] at hfind
    by_cases hig : i = iG
    · subst hig
      have hlast : lastFor (gs ++ [g]) i = some g := by
        unfold lastFor
        rw [List.filter_append]
        simp [hgiG, List.getLast?_concat]
      refine ⟨g, hlast, ?_⟩
      unfold upsertGood at hfind
      by_cases hc : (upsertBatch un t gs).rows.any (rowMatches un g.imdb)
      · rw [if_pos hc] at hfind
        have hsome : ((upsertBatch un t gs).rows.find? (rowMatches un g.imdb)).isSome := by
          rw [List.find?_isSome]
          simpa using List.any_eq_true.mp hc
        obtain ⟨r0, hr0⟩ := Option.isSome_iff_exists.mp hsome
        have := find?_updateFirst_self (rowMatches un g.imdb) (setPayload g)
          (fun x => rowMatches_setPayload un g.imdb g x) _ r0 hr0
        rw [hgiG] at this
        simp only at hfind
        rw [hgiG] at hfind
        rw [this] at hfind
        cases hfind
        exact setPayload_setPayload g g r0
      · rw [if_neg hc] at hfind
        have hnone : (upsertBatch un t gs).rows.find? (rowMatches un (some i)) = none := by
          rw [List.find?_eq_none]
          intro x hx hpx
          rw [← hgiG] at hpx
          exact hc (List.any_eq_true.mpr ⟨x, hx, hpx⟩)
        simp only [insertRow] at hfind
        rw [find?_append_none _ _ _ hnone] at hfind
        rw [List.find?_cons_of_pos _
          (rowMatches_newRow un i g (upsertBatch un t gs).nextId hgiG)] at hfind
        cases hfind
        rfl
    · have hne : g.imdb ≠ some i := by
        rw [hgiG]
        intro hcontra
        exact hig ((Option.some_inj.mp hcontra).symm)
      have hfind1 : (upsertBatch un t gs).rows.find? (rowMatches un (some i)) = some r := by
        unfold upsertGood at hfind
        by_cases hc : (upsertBatch un t gs).rows.any (rowMatches un g.imdb)
        · rw [if_pos hc] at hfind
          simp only at hfind
          rw [← find?_updateFirst_other (rowMatches un g.imdb) (rowMatches un (some i))
            (setPayload g) (fun x => rowMatches_setPayload un (some i) g x)
            (fun x => rowMatches_disjoint un g.imdb (some i) hne x)]
          exact hfind
        · rw [if_neg hc] at hfind
          simp only [insertRow] at hfind
          cases hf2 : (upsertBatch un t gs).rows.find? (rowMatches un (some i)) with
          | some r2 =>
            rw [find?_append_some _ _ _ _ hf2] at hfind
            exact hfind
          | none =>
            rw [find?_append_none _ _ _ hf2] at hfind
            have hnomatch : rowMatches un (some i)
                { id := (upsertBatch un t gs).nextId, username := un, imdb := g.imdb,
                  tmdb := g.tmdb, rtype := g.mtype, watched := g.watched,
                  title := g.title } = false := by
              rw [hgiG]
              simp [rowMatches, sqlEqOptStr]
              exact fun hcontra => hig hcontra.symm
            rw [List.find?_cons_of_neg _ (by simp [hnomatch])] at hfind
            exact Option.noConfusion hfind
      obtain ⟨d, hd, him⟩ := hwit
      have hdgs : d ∈ gs := by
        rcases List.mem_append.mp hd with h1 | h1
        · exact h1
        · rw [List.mem_singleton.mp h1] at him
          exact absurd him hne
      obtain ⟨h, hlast, hset⟩ := ih hallgs t i ⟨d, hdgs, him⟩ r hfind1
      refine ⟨h, ?_, hset⟩
      rw [← hlast]
      unfold lastFor
      rw [List.filter_append]
      rw [List.filter_cons_of_neg (by simp [hne])]
      simp

theorem updBatch_overwrite (un : String) :
    ∀ (rest : List GoodItem) (g : GoodItem) (t : Table),
      (∃ d ∈ rest, d.imdb = g.imdb) →
      updBatch un (upd un g t) rest = updBatch un t rest := by
  intro rest
  induction rest with
  | nil =>
    intro g t h
    obtain ⟨d, hd, _⟩ := h
    cases hd
  | cons d rest2 ih =>
    intro g t hwit
    by_cases hdg : d.imdb = g.imdb
    · have hrows : updateFirst (rowMatches un d.imdb) (setPayload d)
          (updateFirst (rowMatches un g.imdb) (setPayload g) t.rows) =
          updateFirst (rowMatches un d.imdb) (setPayload d) t.rows := by
        rw [hdg, updateFirst_compose _ _ _ (fun x => rowMatches_setPayload un g.imdb g x)]
        have hfun : (fun x => setPayload d (setPayload g x)) = setPayload d := by
          funext x
          exact setPayload_setPayload d g x
        rw [hfun]
      have hcomp : upd un d (upd un g t) = upd un d t := by
        show (⟨updateFirst (rowMatches un d.imdb) (setPayload d)
            (updateFirst (rowMatches un g.imdb) (setPayload g) t.rows), t.nextId⟩ : Table) =
          ⟨updateFirst (rowMatches un d.imdb) (setPayload d) t.rows, t.nextId⟩
        rw [hrows]
      show updBatch un (upd un d (upd un g t)) rest2 = updBatch un (upd un d t) rest2
      rw [hcomp]
    · have hrows : updateFirst (rowMatches un d.imdb) (setPayload d)
          (updateFirst (rowMatches un g.imdb) (setPayload g) t.rows) =
          updateFirst (rowMatches un g.imdb) (setPayload g)
            (updateFirst (rowMatches un d.imdb) (setPayload d) t.rows) := by
        exact updateFirst_comm _ _ _ _
          (fun x => rowMatches_setPayload un g.imdb d x)
          (fun x => rowMatches_setPayload un d.imdb g x)
          (fun x => rowMatches_disjoint un d.imdb g.imdb hdg x)
          t.rows
      have hcomm : upd un d (upd un g t) = upd un g (upd un d t) := by
        show (⟨updateFirst (rowMatches un d.imdb) (setPayload d)
            (updateFirst (rowMatches un g.imdb) (setPayload g) t.rows), t.nextId⟩ : Table) =
          ⟨updateFirst (rowMatches un g.imdb) (setPayload g)
            (updateFirst (rowMatches un d.imdb) (setPayload d) t.rows), t.nextId⟩
        rw [hrows]
      show updBatch un (upd un d (upd un g t)) rest2 = updBatch un (upd un d t) rest2
      rw [hcomm]
      obtain ⟨d2, hd2, him2⟩ := hwit
      have hd2rest : d2 ∈ rest2 := by
        rcases List.mem_cons.mp hd2 with h1 | h1
        · rw [h1] at him2
          exact absurd him2 hdg
        · exact h1
      exact ih g (upd un d t) ⟨d2, hd2rest, him2⟩

theorem updBatch_id_of_QProp (un : String) :
    ∀ (gs : List GoodItem) (t : Table),
      (∀ g ∈ gs, g.imdb.isSome = true) → QProp un gs t → updBatch un t gs = t := by
  intro gs
  induction gs with
  | nil => intro t _ _; rfl
  | cons g rest ih =>
    intro t hall hq
    obtain ⟨iG, hgiG⟩ := Option.isSome_iff_exists.mp (hall g (List.mem_cons_self g rest))
    have hallrest : ∀ x ∈ rest, x.imdb.isSome = true :=
      fun x hx => hall x (List.mem_cons_of_mem g hx)
    by_cases hrest : ∃ d ∈ rest, d.imdb = g.imdb
    · show updBatch un (upd un g t) rest = t
      rw [updBatch_overwrite un rest g t hrest]
      exact ih t hallrest (QProp_tail un g rest t hq)
    · have hfix : upd un g t = t := by
        cases hf : t.rows.find? (rowMatches un g.imdb) with
        | none =>
          show (⟨updateFirst (rowMatches un g.imdb) (setPayload g) t.rows,
            t.nextId⟩ : Table) = t
          rw [find?_updateFirst_none _ _ _ hf]
        | some r =>
          have hf2 : t.rows.find? (rowMatches un (some iG)) = some r := by
            rw [← hgiG]
            exact hf
          obtain ⟨h, hlast, hset⟩ :=
            hq iG ⟨g, List.mem_cons_self g rest, hgiG⟩ r hf2
          have hfilter : rest.filter (fun x => x.imdb = some iG) = [] := by
            rw [List.filter_eq_nil_iff]
            intro d hd
            simp only [decide_eq_true_eq]
            intro him
            exact hrest ⟨d, hd, by rw [him, hgiG]⟩
          have hg2 : h = g := by
            unfold lastFor at hlast
            rw [List.filter_cons_of_pos (by simp [hgiG]), hfilter] at hlast
            simp only [List.getLast?_singleton] at hlast
            exact (Option.some_inj.mp hlast).symm
          rw [hg2] at hset
          show (⟨updateFirst (rowMatches un g.imdb) (setPayload g) t.rows,
            t.nextId⟩ : Table) = t
          rw [updateFirst_fix _ _ _ _ hf hset]
      show updBatch un (upd un g t) rest = t
      rw [hfix]
      exact ih t hallrest (QProp_tail un g rest t hq)

theorem upsertBatch_idem (un : String) (gs : List GoodItem) (t : Table)
    (hall : ∀ g ∈ gs, g.imdb.isSome = true) :
    upsertBatch un (upsertBatch un t gs) gs = upsertBatch un t gs := by
  rw [batch_eq_updBatch un gs (upsertBatch un t gs) (any_batch_present un gs hall t)]
  exact updBatch_id_of_QProp un gs _ hall (run1_QProp un gs hall t)

theorem uniqueKeys_upsertGood (un : String) (g : GoodItem) (t : Table)
    (h : uniqueKeys t) : uniqueKeys (upsertGood un t g) := by
  intro un2 i
  unfold upsertGood
  by_cases hc : t.rows.any (rowMatches un g.imdb)
  · rw [if_pos hc]
    simp only
    rw [countP_updateFirst _ _ _ (fun x => rowMatches_setPayload un2 (some i) g x)]
    exact h un2 i
  · rw [if_neg hc]
    simp only [insertRow]
    rw [List.countP_append]
    by_cases hm : rowMatches un2 (some i)
        { id := t.nextId, username := un, imdb := g.imdb, tmdb := g.tmdb,
          rtype := g.mtype, watched := g.watched, title := g.title } = true
    · have hm2 : un = un2 ∧ sqlEqOptStr g.imdb (some i) = true := by
        simpa [rowMatches] using hm
      have hun : un = un2 := hm2.1
      have hgi : g.imdb = some i := by
        obtain ⟨s, hx, ha⟩ := sqlEq_some _ _ hm2.2
        exact hx.trans ha.symm
      have hzero : t.rows.countP (fun r => rowMatches un2 (some i) r) = 0 := by
        rw [List.countP_eq_zero]
        intro a ha hpa
        refine hc (List.any_eq_true.mpr ⟨a, ha, ?_⟩)
        rw [hgi, hun]
        exact hpa
      rw [hzero]
      simp [List.countP_cons, hm]
    · have hone : List.countP (fun r => rowMatches un2 (some i) r)
          [{ id := t.nextId, username := un, imdb := g.imdb, tmdb := g.tmdb,
             rtype := g.mtype, watched := g.watched, title := g.title }] = 0 := by
        simp [List.countP_cons, hm]
      rw [hone]
      simpa using h un2 i

theorem uniqueKeys_upsertBatch (un : String) (gs : List GoodItem) :
    ∀ t, uniqueKeys t → uniqueKeys (upsertBatch un t gs) := by
  induction gs with
  | nil => intro t h; exact h
  | cons a rest ih =>
    intro t h
    exact ih (upsertGood un t a) (uniqueKeys_upsertGood un a t h)

theorem saveLoop_noFail (un : String) (t0 : Table) :
    ∀ (items : List HistItem) (k : Nat) (cur : Table),
      (∀ it ∈ items, (toGood it).isSome = true) →
      saveLoop (fun _ => false) un t0 k items cur =
        (Except.ok (), upsertBatch un cur (items.filterMap toGood)) := by
  intro items
  induction items with
  | nil => intro k cur _; rfl
  | cons it rest ih =>
    intro k cur hall
    obtain ⟨g, hg⟩ := Option.isSome_iff_exists.mp (hall it (List.mem_cons_self it rest))
    rw [saveLoop, hg]
    simp only [Bool.false_eq_true, if_false]
    rw [ih (k + 1) (upsertGood un cur g) (fun x hx => hall x (List.mem_cons_of_mem it hx))]
    have hfm : (it :: rest).filterMap toGood = g :: rest.filterMap toGood := by
      simp [List.filterMap_cons, hg]
    rw [hfm]
    rfl

theorem save_noFail_eq (un : String) (hist : List HistItem) (t : Table)
    (hall : ∀ it ∈ hist, (toGood it).isSome = true) :
    saveUserWatchedHistory (fun _ => false) un hist t =
      (Except.ok (), upsertBatch un t (hist.filterMap toGood)) := by
  unfold saveUserWatchedHistory
  by_cases he : hist.isEmpty
  · rw [if_pos he]
    have hnil : hist = [] := by
      cases hist with
      | nil => rfl
      | cons a l => exact absurd he (by simp)
    subst hnil
    rfl
  · rw [if_neg he]
    exact saveLoop_noFail un t hist 0 t hall

/-- C7 counterexample: an upstream history item whose media carries no imdb
id (only a tmdb id).  The lookup `WHERE imdb_id = $2` with a NULL `$2`
matches no row under SQL equality, so every run takes the INSERT branch:
running `saveUserWatchedHistory` twice with this one-item batch on an
empty table leaves two rows, whereas one run leaves one — refuting
idempotence over every upstream batch. -/
theorem upsert_not_idempotent_without_imdb :
    ((saveUserWatchedHistory (fun _ => false) "u"
        [{ movie := some { ids := { imdb := none, tmdb := some 42 }, title := "M" },
           show_ := none, last_watched_at := "2024-05-01" }]
        ((saveUserWatchedHistory (fun _ => false) "u"
            [{ movie := some { ids := { imdb := none, tmdb := some 42 }, title := "M" },
               show_ := none, last_watched_at := "2024-05-01" }]
            { rows := [], nextId := 1 }).2)).2).rows.length = 2
    ∧ ((saveUserWatchedHistory (fun _ => false) "u"
        [{ movie := some { ids := { imdb := none, tmdb := some 42 }, title := "M" },
           show_ := none, last_watched_at := "2024-05-01" }]
        { rows := [], nextId := 1 }).2).rows.length = 1 := by
  refine ⟨?_, ?_⟩ <;> decide

/-- C7 (amended): for every starting table state and every upstream batch
whose items each resolve to a media object with a non-null imdb id,
running `saveUserWatchedHistory` twice in a row with the same batch
leaves exactly the same table (same row count and contents) as running it
once, and a starting table with at most one row per (username, non-null
imdb_id) keeps that invariant. -/
theorem upsert_idempotent_amended :
    ∀ (un : String) (hist : List HistItem) (t : Table),
      (∀ it ∈ hist, ∃ g, toGood it = some g ∧ g.imdb.isSome = true) →
      (saveUserWatchedHistory (fun _ => false) un hist
          (saveUserWatchedHistory (fun _ => false) un hist t).2).2 =
        (saveUserWatchedHistory (fun _ => false) un hist t).2
      ∧ (uniqueKeys t →
          uniqueKeys (saveUserWatchedHistory (fun _ => false) un hist t).2) := by
  intro un hist t hgood
  have hallIt : ∀ it ∈ hist, (toGood it).isSome = true := by
    intro it hit
    obtain ⟨g, hg, _⟩ := hgood it hit
    simp [hg]
  have hallG : ∀ g ∈ hist.filterMap toGood, g.imdb.isSome = true := by
    intro g hg
    obtain ⟨it, hit, hgit⟩ := List.mem_filterMap.mp hg
    obtain ⟨g2, hg2, hg2some⟩ := hgood it hit
    rw [hg2] at hgit
    cases hgit
    exact hg2some
  have hsnd1 : (saveUserWatchedHistory (fun _ => false) un hist t).2 =
      upsertBatch un t (hist.filterMap toGood) := by
    rw [save_noFail_eq un hist t hallIt]
  constructor
  · rw [hsnd1, save_noFail_eq un hist (upsertBatch un t (hist.filterMap toGood)) hallIt]
    exact upsertBatch_idem un (hist.filterMap toGood) t hallG
  · intro huniq
    rw [hsnd1]
    exact uniqueKeys_upsertBatch un (hist.filterMap toGood) t huniq

/-- Witness for C7 (amended): a concrete one-item batch with an imdb id,
run twice from the empty table. -/
theorem upsert_idempotent_amended_witness :
    (saveUserWatchedHistory (fun _ => false) "u"
        [{ movie := some { ids := { imdb := some "tt1", tmdb := some 7 }, title := "M" },
           show_ := none, last_watched_at := "2024-05-01" }]
        (saveUserWatchedHistory (fun _ => false) "u"
            [{ movie := some { ids := { imdb := some "tt1", tmdb := some 7 }, title := "M" },
               show_ := none, last_watched_at := "2024-05-01" }]
            { rows := [], nextId := 1 }).2).2 =
      (saveUserWatchedHistory (fun _ => false) "u"
          [{ movie := some { ids := { imdb := some "tt1", tmdb := some 7 }, title := "M" },
             show_ := none, last_watched_at := "2024-05-01" }]
          { rows := [], nextId := 1 }).2
    ∧ (uniqueKeys { rows := [], nextId := 1 } →
        uniqueKeys (saveUserWatchedHistory (fun _ => false) "u"
          [{ movie := some { ids := { imdb := some "tt1", tmdb := some 7 }, title := "M" },
             show_ := none, last_watched_at := "2024-05-01" }]
          { rows := [], nextId := 1 }).2) :=
  upsert_idempotent_amended "u"
    [{ movie := some { ids := { imdb := some "tt1", tmdb := some 7 }, title := "M" },
       show_ := none, last_watched_at := "2024-05-01" }]
    { rows := [], nextId := 1 }
    (by
      intro it hit
      rw [List.mem_singleton] at hit
      subst hit
      exact ⟨_, rfl, rfl⟩)

end StremioTrakt
